import Mathlib

/-!
Shallow embedding of the resilient extraction pipeline in
`src/job_extractor.py` (class `JobPostProcessor`), covering the
credential pool with key rotation, the retrying service caller, the
extractor's response cleanup and field defaulting, and the batch
processing loop.

The external LLM service (`self.model.generate_content`) is modelled as
a function from (current key index, attempt number) to an `Except`
value: `.ok text` for a successful response, `.error e` for a raised
exception with text `e`.  `json.loads` is modelled as a parameter
`parse : String → Option Json` that either yields the decoded JSON
value (of any kind) or fails; concrete instantiations in the theorems
mirror `json.loads` on the concrete strings involved.
Side effects that matter to the specification (backoff sleeps, which
key each service call used) are returned explicitly in the results.
-/

/-- State of `JobPostProcessor`'s credential pool: the parsed key list
(`self.api_keys`), `self.current_key_index`, and `self.failed_keys`
(a set, represented as a list used only through membership). -/
structure PoolState where
  apiKeys : List String
  currentKeyIndex : Nat
  failedKeys : List Nat
deriving Repr, DecidableEq

/-- Models `self.failed_keys.add(i)`: set insertion. -/
def addFailed (failed : List Nat) (i : Nat) : List Nat :=
  if i ∈ failed then failed else i :: failed

/-- The linear scan `for i in range(len(self.api_keys)): if i not in
self.failed_keys: ...` of `_rotate_api_key`, started at index `i` with
`fuel` indices left to inspect: first index from `i` upward (within
range) not in `failed`. -/
def findAvail (failed : List Nat) : Nat → Nat → Option Nat
  | 0, _ => none
  | fuel + 1, i => if i ∈ failed then findAvail failed fuel (i + 1) else some i

/-- Models `JobPostProcessor._rotate_api_key` (src/job_extractor.py:49-62):
adds the current key index to `failed_keys`, then linearly searches
from 0 for the first non-failed index; on success sets
`current_key_index` to it and returns `True`, otherwise returns
`False` leaving `current_key_index` unchanged. -/
def rotateApiKey (st : PoolState) : Bool × PoolState :=
  match findAvail (addFailed st.failedKeys st.currentKeyIndex)
      st.apiKeys.length 0 with
  | some i =>
    (true, { st with currentKeyIndex := i,
                     failedKeys := addFailed st.failedKeys st.currentKeyIndex })
  | none =>
    (false, { st with failedKeys := addFailed st.failedKeys st.currentKeyIndex })

/-- List `l` begins with `pre` (kernel-reducible helper for the string
operations the source uses). -/
def listStartsWith : List Char → List Char → Bool
  | _, [] => true
  | [], _ :: _ => false
  | c :: cs, d :: ds => c = d && listStartsWith cs ds

/-- Tests that `needle` occurs as a contiguous run inside `hay`: Python's
`needle in hay` on strings. -/
def listContainsSub : List Char → List Char → Bool
  | [], needle => needle.isEmpty
  | hay, needle =>
    listStartsWith hay needle ||
      match hay with
      | [] => false
      | _ :: rest => listContainsSub rest needle

/-- Python's `s.lower()` (on the ASCII error vocabulary involved). -/
def lowerStr (s : String) : String :=
  ⟨s.toList.map Char.toLower⟩

/-- Case-insensitive substring test: Python's `needle in hay.lower()`. -/
def containsSub (hay needle : String) : Bool :=
  listContainsSub (lowerStr hay).toList needle.toList

/-- The error classification of `_make_api_call_with_retry`
(src/job_extractor.py:75): `"quota" in str(e).lower() or "invalid" in
str(e).lower() or "forbidden" in str(e).lower()`. -/
def isKeyError (e : String) : Bool :=
  containsSub e "quota" || containsSub e "invalid" || containsSub e "forbidden"

/-- Python's `s.strip()`: leading and trailing whitespace removed. -/
def pyStrip (s : String) : String :=
  ⟨((s.toList.dropWhile Char.isWhitespace).reverse.dropWhile
      Char.isWhitespace).reverse⟩

/-- Possible final outcomes of `_make_api_call_with_retry`: a returned
(stripped) response text, the `Exception("All API keys exhausted")`,
the re-raised underlying error `raise e`, or the terminal
`Exception(f"Failed after {max_retries} attempts")`. -/
inductive CallOutcome where
  | success : String → CallOutcome
  | allKeysExhausted : CallOutcome
  | propagated : String → CallOutcome
  | failedAfterRetries : CallOutcome
deriving Repr, DecidableEq

/-- Result of a run of `_make_api_call_with_retry`: the outcome, the
final pool state, the list of backoff sleep durations (arguments to
`time.sleep`) in order, and the list of key indices used for the
service calls actually issued, in order. -/
structure RetryResult where
  outcome : CallOutcome
  state : PoolState
  sleeps : List Nat
  callLog : List Nat
deriving Repr, DecidableEq

/-- The attempt loop of `JobPostProcessor._make_api_call_with_retry`
(src/job_extractor.py:64-88), entered at loop counter `attempt`.
`svc keyIndex attempt` is the modelled service call.  Mirrors the
source: on success return `response.text.strip()`; on a key-class
error rotate and `continue` with no sleep, or raise
`All API keys exhausted` when rotation fails; on any other error sleep
`2 ** attempt` and `continue` when `attempt < max_retries - 1`, else
`raise e`; when the loop counter runs out, the final generic raise. -/
def retryLoopAux (svc : Nat → Nat → Except String String) (maxRetries : Nat) :
    Nat → PoolState → Nat → RetryResult
  | 0, st, _ => ⟨.failedAfterRetries, st, [], []⟩
  | fuel + 1, st, attempt =>
    match svc st.currentKeyIndex attempt with
    | .ok text => ⟨.success (pyStrip text), st, [], [st.currentKeyIndex]⟩
    | .error e =>
      if isKeyError e then
        match rotateApiKey st with
        | (true, st') =>
          let r := retryLoopAux svc maxRetries fuel st' (attempt + 1)
          ⟨r.outcome, r.state, r.sleeps, st.currentKeyIndex :: r.callLog⟩
        | (false, st') => ⟨.allKeysExhausted, st', [], [st.currentKeyIndex]⟩
      else if attempt + 1 < maxRetries then
        let r := retryLoopAux svc maxRetries fuel st (attempt + 1)
        ⟨r.outcome, r.state, 2 ^ attempt :: r.sleeps,
          st.currentKeyIndex :: r.callLog⟩
      else ⟨.propagated e, st, [], [st.currentKeyIndex]⟩

/-- The attempt loop entered at loop counter `attempt`: the remaining
iterations of `for attempt in range(max_retries)` number
`maxRetries - attempt`. -/
def retryLoop (svc : Nat → Nat → Except String String) (maxRetries : Nat)
    (st : PoolState) (attempt : Nat) : RetryResult :=
  retryLoopAux svc maxRetries (maxRetries - attempt) st attempt

/-- Models `JobPostProcessor._make_api_call_with_retry(prompt, max_retries)`:
the loop started at `attempt = 0`. -/
def makeApiCallWithRetry (svc : Nat → Nat → Except String String)
    (maxRetries : Nat) (st : PoolState) : RetryResult :=
  retryLoop svc maxRetries st 0

/-- JSON values, as produced by `json.loads` in `extract_job_details`. -/
inductive Json where
  | str : String → Json
  | bool : Bool → Json
  | num : Int → Json
  | null : Json
  | arr : List Json → Json
  | obj : List (String × Json) → Json
deriving Repr

/-- A parsed JSON object (`job_data` in the source): an ordered mapping
from field names to values, looked up by first occurrence. -/
abbrev JobData := List (String × Json)

/-- Python's `s.startswith(pre)`. -/
def pyStartsWith (s pre : String) : Bool :=
  listStartsWith s.toList pre.toList

/-- Python's `s[a:-b]`: drop the first `a` and the last `b` characters. -/
def pyDropEnds (s : String) (a b : Nat) : String :=
  let l := s.toList.drop a
  ⟨l.take (l.length - b)⟩

/-- The code-fence cleanup of `extract_job_details`
(src/job_extractor.py:178-181): `result_text[7:-3]` after a
`'```json'` marker, `result_text[3:-3]` after a bare `'```'`. -/
def cleanResponseText (t : String) : String :=
  if pyStartsWith t "```json" then pyDropEnds t 7 3
  else if pyStartsWith t "```" then pyDropEnds t 3 3
  else t

/-- The fourteen required fields of `extract_job_details`
(src/job_extractor.py:186-191), in source order. -/
def requiredFields : List String :=
  ["company_name", "job_title", "location", "experience_required",
   "salary_range", "job_type", "skills_required", "contact_info",
   "application_method", "job_description", "remote_work", "urgency",
   "benefits", "is_valid_job"]

/-- The defaulting loop of `extract_job_details`
(src/job_extractor.py:193-195): `for field in required_fields: if field
not in job_data: job_data[field] = 'Not specified'` — a missing key is
appended at the end of the mapping, as Python dict insertion does. -/
def fillStep (acc : JobData) (f : String) : JobData :=
  if (acc.lookup f).isSome then acc
  else acc ++ [(f, Json.str "Not specified")]

def fillRequired (jd : JobData) : JobData :=
  requiredFields.foldl fillStep jd

/-- The all-default dictionary returned by `extract_job_details`'s
`except` branch (src/job_extractor.py:201-216). -/
def defaultJobData : JobData :=
  [("company_name", .str "Not specified"),
   ("job_title", .str "Not specified"),
   ("location", .str "Not specified"),
   ("experience_required", .str "Not specified"),
   ("salary_range", .str "Not specified"),
   ("job_type", .str "Not specified"),
   ("skills_required", .str "Not specified"),
   ("contact_info", .str "Not specified"),
   ("application_method", .str "Not specified"),
   ("job_description", .str "Not specified"),
   ("remote_work", .str "Not specified"),
   ("urgency", .str "Normal"),
   ("benefits", .str "Not specified"),
   ("is_valid_job", .bool false)]

/-- Python's `field in job_data` for each JSON-decoded value kind, as
evaluated by the defaulting loop's `if field not in job_data`: key
membership for a dict, element equality for a list, case-sensitive
substring for a string; `none` models the `TypeError` raised when the
value is not a container (number, boolean, `None`). -/
def pyIn (field : String) : Json → Option Bool
  | .obj l => some (l.lookup field).isSome
  | .arr elems =>
    some (elems.any (fun v =>
      match v with
      | .str s => s == field
      | _ => false))
  | .str s => some (listContainsSub s.toList field.toList)
  | _ => none

/-- Whether every one of the fourteen required field names passes the
`in` test against the decoded value — the condition under which the
defaulting loop over a non-dict value performs no assignment (and
hence raises nothing). -/
def allFieldsPyIn (v : Json) : Bool :=
  requiredFields.all (fun f =>
    match pyIn f v with
    | some true => true
    | _ => false)

def isJsonObj : Json → Bool
  | .obj _ => true
  | _ => false

/-- Field access on an extraction result: the named fields of a JSON
object; a non-object result has no named fields. -/
def jsonLookup : Json → String → Option Json
  | .obj l, f => l.lookup f
  | _, _ => none

/-- Models `JobPostProcessor.extract_job_details` (src/job_extractor.py:133-216)
downstream of the service call: `svcResult` is the outcome of
`_make_api_call_with_retry(prompt)` (any raised exception selects the
`except` branch) and `parse` models `json.loads` (`none` is a raised
`JSONDecodeError`, selecting the `except` branch).  On a decoded
object the fourteen required fields are defaulted and the dict
returned.  On a decoded non-dict value the loop `if field not in
job_data: job_data[field] = ...` either raises (a membership test on a
non-container, or the assignment `job_data[field] = 'Not specified'`
on a list/string — both `TypeError`, routed to the `except` branch),
or — when every field name passes the `in` test — performs no
assignment at all and the non-dict value is returned as-is. -/
def extractJobDetails (parse : String → Option Json)
    (svcResult : CallOutcome) : Json :=
  match svcResult with
  | .success text =>
    match parse (cleanResponseText text) with
    | some (.obj fields) => .obj (fillRequired fields)
    | some v => if allFieldsPyIn v then v else .obj defaultJobData
    | none => .obj defaultJobData
  | _ => .obj defaultJobData

/-- Python truthiness of a JSON value, as tested by
`if job_details.get('is_valid_job', False):`. -/
def jsonTruthy : Json → Bool
  | .str s => !s.isEmpty
  | .bool b => b
  | .num n => n != 0
  | .null => false
  | .arr l => !l.isEmpty
  | .obj l => !l.isEmpty

/-- Models `job_details.get('is_valid_job', False)` under `if`: look up the
key, default `False`, test truthiness (src/job_extractor.py:239). -/
def isValidJobTruthy (jd : JobData) : Bool :=
  jsonTruthy ((jd.lookup "is_valid_job").getD (Json.bool false))

/-- A scraped post record, as consumed by `process_posts_batch`: the
dict keys read there (`Content`, `Author`, `Time`, `source_file`,
`URL`, `Query_Name`), each possibly absent (`post.get` defaults are
applied at the use sites). -/
structure Post where
  content : Option String
  author : Option String
  time : Option String
  sourceFile : Option String
  url : Option String
  queryName : Option String
deriving Repr, DecidableEq

/-- Python dict assignment `d[k] = v`: overwrite in place when the key
is present, append otherwise. -/
def dictSet (d : JobData) (k : String) (v : Json) : JobData :=
  if (d.lookup k).isSome then
    d.map (fun p => if p.1 = k then (k, v) else p)
  else d ++ [(k, v)]

/-- Python's `d.update(entries)`: assign each entry in order. -/
def dictUpdate (d : JobData) (entries : JobData) : JobData :=
  entries.foldl (fun acc e => dictSet acc e.1 e.2) d

/-- The metadata merged into a valid job by `process_posts_batch`
(src/job_extractor.py:241-248); `now` stands for
`datetime.now().isoformat()`. -/
def provenanceEntries (p : Post) (now : String) : JobData :=
  [("original_author", .str (p.author.getD "Unknown")),
   ("post_time", .str (p.time.getD "")),
   ("source_file", .str (p.sourceFile.getD "Unknown")),
   ("post_url", .str (p.url.getD "Not available")),
   ("query_name", .str (p.queryName.getD "Unknown")),
   ("processed_at", .str now)]

/-- Result of a run of the batch loop: `processed_jobs`, the
`failed_posts` ledger, the contents for which `extract_job_details`
was invoked (in call order), and the final extractor state. -/
structure BatchResult (σ : Type) where
  jobs : List JobData
  failures : List Post
  calls : List String
  finalState : σ
deriving Repr

/-- The per-item body of `process_posts_batch`
(src/job_extractor.py:227-255), over one batch.  The extractor is a
stateful function `ex` (state type `σ`) from `(content, author, time)`
to either a job dict or a raised exception (`Except.error`), so that
history-dependent extractor behaviour (the mutable credential pool) is
covered.  A post whose stripped content is shorter than 20 characters
is skipped with no call and no record; an exception is recorded in
`failed_posts`; a job dict is admitted iff
`job_details.get('is_valid_job', False)` is truthy, after merging
provenance. -/
def processBatchItems {σ : Type}
    (ex : σ → String → String → String → Except String JobData × σ)
    (now : String) : σ → List Post → BatchResult σ
  | s, [] => ⟨[], [], [], s⟩
  | s, p :: rest =>
    if (pyStrip (p.content.getD "")).length < 20 then
      processBatchItems ex now s rest
    else
      match ex s (p.content.getD "") (p.author.getD "Unknown")
          (p.time.getD "") with
      | (.error _, s') =>
        let r := processBatchItems ex now s' rest
        ⟨r.jobs, p :: r.failures, (p.content.getD "") :: r.calls,
          r.finalState⟩
      | (.ok jd, s') =>
        let r := processBatchItems ex now s' rest
        if isValidJobTruthy jd then
          ⟨dictUpdate jd (provenanceEntries p now) :: r.jobs, r.failures,
            (p.content.getD "") :: r.calls, r.finalState⟩
        else ⟨r.jobs, r.failures, (p.content.getD "") :: r.calls,
          r.finalState⟩

/-- The batch slicing `posts[i:i + batch_size]` for
`i in range(0, len(posts), batch_size)` (src/job_extractor.py:222-223),
with the list's length as structural fuel. -/
def batchesOfAux (bs : Nat) : Nat → List Post → List (List Post)
  | 0, _ => []
  | _, [] => []
  | fuel + 1, l => l.take bs :: batchesOfAux bs fuel (l.drop bs)

/-- The contiguous batches of `posts` of size `bs` (last one possibly
smaller).  `bs = 0` is outside the source's domain (`range` with step 0
raises); it is mapped to no batches. -/
def batchesOf (bs : Nat) (posts : List Post) : List (List Post) :=
  if bs = 0 then [] else batchesOfAux bs posts.length posts

/-- The outer batch loop of `process_posts_batch`: per-batch results
are concatenated in batch order (`processed_jobs.extend(batch_results)`),
threading the extractor state. -/
def runBatches {σ : Type}
    (ex : σ → String → String → String → Except String JobData × σ)
    (now : String) : σ → List (List Post) → BatchResult σ
  | s, [] => ⟨[], [], [], s⟩
  | s, b :: bs =>
    let r1 := processBatchItems ex now s b
    let r2 := runBatches ex now r1.finalState bs
    ⟨r1.jobs ++ r2.jobs, r1.failures ++ r2.failures, r1.calls ++ r2.calls,
      r2.finalState⟩

/-- Models `JobPostProcessor.process_posts_batch(posts, batch_size)`
(src/job_extractor.py:218-264): the batch loop over the slices, paired
with the number of batch iterations performed. -/
def processPostsBatch {σ : Type}
    (ex : σ → String → String → String → Except String JobData × σ)
    (now : String) (s : σ) (posts : List Post) (batchSize : Nat) :
    BatchResult σ × Nat :=
  (runBatches ex now s (batchesOf batchSize posts),
    (batchesOf batchSize posts).length)

def acmeResponse : String :=
  "```json\n\x7b\"company_name\":\"Acme\",\"job_title\":\"Engineer\",\"is_valid_job\":true\x7d\n```"

def acmeCleaned : String :=
  "\n\x7b\"company_name\":\"Acme\",\"job_title\":\"Engineer\",\"is_valid_job\":true\x7d\n"

def acmeParsed : JobData :=
  [("company_name", .str "Acme"), ("job_title", .str "Engineer"),
   ("is_valid_job", .bool true)]

def acmeParse : String → Option Json :=
  fun s => if s = acmeCleaned then some (.obj acmeParsed) else none

def arrText : String :=
  "[\"company_name\",\"job_title\",\"location\",\"experience_required\",\"salary_range\",\"job_type\",\"skills_required\",\"contact_info\",\"application_method\",\"job_description\",\"remote_work\",\"urgency\",\"benefits\",\"is_valid_job\"]"

/-- What `json.loads` yields on `arrText`: the JSON array of exactly
the fourteen required field names. -/
def fieldNamesArr : Json := .arr (requiredFields.map Json.str)

def arrParse : String → Option Json :=
  fun s => if s = arrText then some fieldNamesArr else none

def failParse : String → Option Json := fun _ => none

def pool2 : PoolState := ⟨["key1", "key2"], 0, []⟩

def svcQuotaKey0 : Nat → Nat → Except String String :=
  fun k _ => if k = 0 then .error "429 Quota exceeded for key" else .ok " ok "

def svcTimeout : Nat → Nat → Except String String :=
  fun _ _ => .error "connection timeout"

def stExh : PoolState := ⟨["key1", "key2"], 1, [0, 1]⟩

def svcQuotaAlways : Nat → Nat → Except String String :=
  fun _ _ => .error "Quota exceeded"

def exTrivial : Unit → String → String → String → Except String JobData × Unit :=
  fun u _ _ _ => (.ok [], u)

def blankPost : Post := ⟨none, none, none, none, none, none⟩

def hiPost : Post := ⟨some "hi", none, none, none, none, none⟩

def longPost : Post :=
  ⟨some "We are hiring a backend engineer, apply now", none, none, none,
    none, none⟩

def exValidJob : Unit → String → String → String →
    Except String JobData × Unit :=
  fun u _ _ _ => (.ok [("is_valid_job", Json.bool true)], u)

def parseEmptyObj : String → Option Json :=
  fun t => if t = "{}" then some (.obj []) else none

theorem mem_addFailed_self (failed : List Nat) (i : Nat) :
    i ∈ addFailed failed i := by
  unfold addFailed
  split
  · assumption
  · exact List.mem_cons_self i failed

theorem mem_addFailed_of_mem (failed : List Nat) (i j : Nat) (h : j ∈ failed) :
    j ∈ addFailed failed i := by
  unfold addFailed
  split
  · exact h
  · exact List.mem_cons_of_mem i h

theorem rotateApiKey_snd_failedKeys (st : PoolState) :
    (rotateApiKey st).2.failedKeys = addFailed st.failedKeys st.currentKeyIndex := by
  unfold rotateApiKey
  split <;> rfl

theorem rotateApiKey_snd_apiKeys (st : PoolState) :
    (rotateApiKey st).2.apiKeys = st.apiKeys := by
  unfold rotateApiKey
  split <;> rfl

theorem retryLoop_step (svc : Nat → Nat → Except String String)
    (m : Nat) (st : PoolState) (a : Nat) (h : a < m) :
    retryLoop svc m st a =
      match svc st.currentKeyIndex a with
      | .ok text => ⟨.success (pyStrip text), st, [], [st.currentKeyIndex]⟩
      | .error e =>
        if isKeyError e then
          match rotateApiKey st with
          | (true, st') =>
            let r := retryLoop svc m st' (a + 1)
            ⟨r.outcome, r.state, r.sleeps, st.currentKeyIndex :: r.callLog⟩
          | (false, st') => ⟨.allKeysExhausted, st', [], [st.currentKeyIndex]⟩
        else if a + 1 < m then
          let r := retryLoop svc m st (a + 1)
          ⟨r.outcome, r.state, 2 ^ a :: r.sleeps, st.currentKeyIndex :: r.callLog⟩
        else ⟨.propagated e, st, [], [st.currentKeyIndex]⟩ := by
  show retryLoopAux svc m (m - a) st a = _
  have hm : m - a = (m - (a + 1)) + 1 := by omega
  rw [hm]
  rfl

/-- Claim C1: inside `_make_api_call_with_retry`, a failing service
call whose error text contains "quota", "invalid" or "forbidden"
(case-insensitively) marks the current key index failed; when rotation
finds a next key the loop retries immediately with the rotated state —
same sleep list, the failed call's key merely logged — and when
rotation finds none it raises `All API keys exhausted` at once, with no
further service call.  With a pool of two keys where key index 0
always raises a quota error, index 0 is marked failed, rotation moves
to index 1, and the call succeeds using index 1 with no backoff
sleep. -/
theorem key_error_marks_rotates_and_retries_without_backoff
    (svc : Nat → Nat → Except String String) (m a : Nat)
    (st st' : PoolState) (e : String) (ha : a < m)
    (hsvc : svc st.currentKeyIndex a = .error e)
    (hke : isKeyError e = true) :
    st.currentKeyIndex ∈ (rotateApiKey st).2.failedKeys ∧
    (rotateApiKey st = (true, st') →
      retryLoop svc m st a =
        ⟨(retryLoop svc m st' (a + 1)).outcome,
         (retryLoop svc m st' (a + 1)).state,
         (retryLoop svc m st' (a + 1)).sleeps,
         st.currentKeyIndex :: (retryLoop svc m st' (a + 1)).callLog⟩) ∧
    (rotateApiKey st = (false, st') →
      retryLoop svc m st a = ⟨.allKeysExhausted, st', [], [st.currentKeyIndex]⟩) ∧
    makeApiCallWithRetry svcQuotaKey0 3 pool2 =
      ⟨.success "ok", ⟨["key1", "key2"], 1, [0]⟩, [], [0, 1]⟩ := by
  refine ⟨?_, ?_, ?_, by decide⟩
  · rw [rotateApiKey_snd_failedKeys]
    exact mem_addFailed_self _ _
  · intro hrot
    rw [retryLoop_step svc m st a ha, hsvc]
    simp only [hke, if_pos, hrot]
  · intro hrot
    rw [retryLoop_step svc m st a ha, hsvc]
    simp only [hke, if_pos, hrot]

theorem key_error_marks_rotates_and_retries_without_backoff_witness :
    pool2.currentKeyIndex ∈ (rotateApiKey pool2).2.failedKeys ∧
    (rotateApiKey pool2 = (true, ⟨["key1", "key2"], 1, [0]⟩) →
      retryLoop svcQuotaKey0 3 pool2 0 =
        ⟨(retryLoop svcQuotaKey0 3 ⟨["key1", "key2"], 1, [0]⟩ 1).outcome,
         (retryLoop svcQuotaKey0 3 ⟨["key1", "key2"], 1, [0]⟩ 1).state,
         (retryLoop svcQuotaKey0 3 ⟨["key1", "key2"], 1, [0]⟩ 1).sleeps,
         pool2.currentKeyIndex ::
           (retryLoop svcQuotaKey0 3 ⟨["key1", "key2"], 1, [0]⟩ 1).callLog⟩) ∧
    (rotateApiKey pool2 = (false, ⟨["key1", "key2"], 1, [0]⟩) →
      retryLoop svcQuotaKey0 3 pool2 0 =
        ⟨.allKeysExhausted, ⟨["key1", "key2"], 1, [0]⟩, [],
          [pool2.currentKeyIndex]⟩) ∧
    makeApiCallWithRetry svcQuotaKey0 3 pool2 =
      ⟨.success "ok", ⟨["key1", "key2"], 1, [0]⟩, [], [0, 1]⟩ :=
  key_error_marks_rotates_and_retries_without_backoff svcQuotaKey0 3 0 pool2
    ⟨["key1", "key2"], 1, [0]⟩ "429 Quota exceeded for key"
    (by decide) rfl (by decide)

theorem transient_retryLoopAux (svc : Nat → Nat → Except String String)
    (m : Nat) (st : PoolState) (e : Nat → String)
    (hsvc : ∀ i, svc st.currentKeyIndex i = .error (e i))
    (hke : ∀ i, isKeyError (e i) = false) :
    ∀ (k a : Nat), a + k + 1 = m →
      retryLoopAux svc m (k + 1) st a =
        ⟨.propagated (e (a + k)), st, (List.range' a k).map (2 ^ ·),
          List.replicate (k + 1) st.currentKeyIndex⟩ := by
  intro k
  induction k with
  | zero =>
    intro a ha
    rw [retryLoopAux, hsvc a]
    simp [hke a, show ¬(a + 1 < m) by omega]
  | succ n ih =>
    intro a ha
    rw [retryLoopAux, hsvc a]
    simp only [hke a, Bool.false_eq_true, if_false,
      show a + 1 < m by omega, if_true]
    rw [ih (a + 1) (by omega)]
    simp [List.range'_succ, List.replicate_succ,
      show a + 1 + n = a + (n + 1) by omega]

/-- Claim C2: a failing service call whose error text contains none of
"quota", "invalid", "forbidden" makes `_make_api_call_with_retry`
sleep `2 ^ attempt` and retry with the same key while attempts remain;
after `maxRetries` attempts the underlying error is re-raised, the
pool state is untouched (no key marked failed), and every service call
used the same key index. -/
theorem transient_error_backoff_same_key_then_propagates
    (svc : Nat → Nat → Except String String) (m : Nat) (st : PoolState)
    (e : Nat → String) (hm : 1 ≤ m)
    (hsvc : ∀ i, svc st.currentKeyIndex i = .error (e i))
    (hke : ∀ i, isKeyError (e i) = false) :
    makeApiCallWithRetry svc m st =
      ⟨.propagated (e (m - 1)), st, (List.range (m - 1)).map (2 ^ ·),
        List.replicate m st.currentKeyIndex⟩ := by
  show retryLoopAux svc m (m - 0) st 0 = _
  have h1 : m - 0 = (m - 1) + 1 := by omega
  rw [h1, transient_retryLoopAux svc m st e hsvc hke (m - 1) 0 (by omega)]
  simp [List.range_eq_range', show m - 1 + 1 = m by omega]

theorem transient_error_backoff_same_key_then_propagates_witness :
    makeApiCallWithRetry svcTimeout 3 pool2 =
      ⟨.propagated "connection timeout", pool2,
        (List.range 2).map (2 ^ ·), List.replicate 3 pool2.currentKeyIndex⟩ :=
  transient_error_backoff_same_key_then_propagates svcTimeout 3 pool2
    (fun _ => "connection timeout") (by decide) (fun _ => rfl)
    (by intro i; show isKeyError "connection timeout" = false; decide)

theorem findAvail_eq_some (failed : List Nat) :
    ∀ (fuel i j : Nat), findAvail failed fuel i = some j →
      j ∉ failed ∧ i ≤ j ∧ j < i + fuel ∧
        ∀ k, i ≤ k → k < j → k ∈ failed := by
  intro fuel
  induction fuel with
  | zero => intro i j h; simp [findAvail] at h
  | succ n ih =>
    intro i j h
    rw [findAvail] at h
    by_cases hi : i ∈ failed
    · rw [if_pos hi] at h
      obtain ⟨hj1, hj2, hj3, hj4⟩ := ih (i + 1) j h
      refine ⟨hj1, by omega, by omega, fun k hk1 hk2 => ?_⟩
      by_cases hki : k = i
      · exact hki ▸ hi
      · exact hj4 k (by omega) hk2
    · rw [if_neg hi] at h
      injection h with h
      subst h
      exact ⟨hi, Nat.le_refl _, by omega, fun k hk1 hk2 => absurd hk2 (by omega)⟩

theorem findAvail_eq_none (failed : List Nat) :
    ∀ (fuel i : Nat), findAvail failed fuel i = none →
      ∀ k, i ≤ k → k < i + fuel → k ∈ failed := by
  intro fuel
  induction fuel with
  | zero => intro i _ k hk1 hk2; omega
  | succ n ih =>
    intro i h k hk1 hk2
    rw [findAvail] at h
    by_cases hi : i ∈ failed
    · rw [if_pos hi] at h
      by_cases hki : k = i
      · exact hki ▸ hi
      · exact ih (i + 1) h k (by omega) (by omega)
    · rw [if_neg hi] at h
      exact absurd h (by simp)

theorem findAvail_none_of_all (failed : List Nat) :
    ∀ (fuel i : Nat), (∀ k, i ≤ k → k < i + fuel → k ∈ failed) →
      findAvail failed fuel i = none := by
  intro fuel
  induction fuel with
  | zero => intro i _; rfl
  | succ n ih =>
    intro i h
    rw [findAvail, if_pos (h i (Nat.le_refl _) (by omega))]
    exact ih (i + 1) (fun k hk1 hk2 => h k (by omega) (by omega))

/-- Claim C5: `_rotate_api_key` adds the current (active) key index to
the exhausted set, keeps every previously exhausted index, and — when
it succeeds — moves the active index to the lowest in-range index not
in the exhausted set, which is therefore never the index just marked
and is the lowest remaining non-exhausted index. -/
theorem mark_failed_active_advances_to_lowest_available (st : PoolState) :
    st.currentKeyIndex ∈ (rotateApiKey st).2.failedKeys ∧
    (∀ j, j ∈ st.failedKeys → j ∈ (rotateApiKey st).2.failedKeys) ∧
    ∀ st', rotateApiKey st = (true, st') →
      st'.currentKeyIndex ∉ st'.failedKeys ∧
      st'.currentKeyIndex ≠ st.currentKeyIndex ∧
      st'.currentKeyIndex < st.apiKeys.length ∧
      ∀ j, j < st'.currentKeyIndex → j ∈ st'.failedKeys := by
  refine ⟨?_, ?_, ?_⟩
  · rw [rotateApiKey_snd_failedKeys]
    exact mem_addFailed_self _ _
  · intro j hj
    rw [rotateApiKey_snd_failedKeys]
    exact mem_addFailed_of_mem _ _ _ hj
  · intro st' h
    unfold rotateApiKey at h
    rcases hfind : findAvail (addFailed st.failedKeys st.currentKeyIndex)
        st.apiKeys.length 0 with _ | i
    · rw [hfind] at h
      simp at h
    · rw [hfind] at h
      simp only [Prod.mk.injEq, true_and] at h
      subst h
      dsimp only
      obtain ⟨h1, _, h3, h4⟩ := findAvail_eq_some _ _ _ _ hfind
      refine ⟨h1, ?_, by omega, fun j hj => h4 j (Nat.zero_le _) hj⟩
      intro hEq
      exact h1 (hEq ▸ mem_addFailed_self st.failedKeys st.currentKeyIndex)

theorem mark_failed_active_advances_to_lowest_available_witness :
    pool2.currentKeyIndex ∈ (rotateApiKey pool2).2.failedKeys ∧
    (∀ j, j ∈ pool2.failedKeys → j ∈ (rotateApiKey pool2).2.failedKeys) ∧
    ∀ st', rotateApiKey pool2 = (true, st') →
      st'.currentKeyIndex ∉ st'.failedKeys ∧
      st'.currentKeyIndex ≠ pool2.currentKeyIndex ∧
      st'.currentKeyIndex < pool2.apiKeys.length ∧
      ∀ j, j < st'.currentKeyIndex → j ∈ st'.failedKeys :=
  mark_failed_active_advances_to_lowest_available pool2

/-- Claim C6 counterexample: with both keys of a 2-key pool marked
failed, `_make_api_call_with_retry` does not fail before contacting
the service — it issues a service call with the stale current key
(call log `[1]`, not `[]`); only when that call raises a key-class
error does it raise `All API keys exhausted`, and if the stale call
happens to succeed the caller even returns its text. -/
theorem exhausted_pool_still_issues_service_call :
    (makeApiCallWithRetry svcQuotaAlways 3 stExh).callLog = [1] ∧
    (makeApiCallWithRetry svcQuotaAlways 3 stExh).outcome =
      .allKeysExhausted ∧
    ([1] : List Nat) ≠ [] ∧
    makeApiCallWithRetry (fun _ _ => .ok " still works ") 3 stExh =
      ⟨.success "still works", stExh, [], [1]⟩ := by
  decide

/-- Claim C6 (amended): once every in-range index is in `failed_keys`,
`_rotate_api_key` reports exhaustion (returns `False`); a subsequent
`_make_api_call_with_retry` is not short-circuited before contacting
the service — it issues exactly one service call with the stale
current key, and when that call raises a key-class error it raises
`All API keys exhausted` immediately. -/
theorem exhausted_pool_rotation_fails_and_key_error_raises
    (st : PoolState)
    (hall : ∀ i, i < st.apiKeys.length → i ∈ st.failedKeys) :
    (rotateApiKey st).1 = false ∧
    ∀ (svc : Nat → Nat → Except String String) (m : Nat) (e : String),
      1 ≤ m → svc st.currentKeyIndex 0 = .error e → isKeyError e = true →
      makeApiCallWithRetry svc m st =
        ⟨.allKeysExhausted, (rotateApiKey st).2, [], [st.currentKeyIndex]⟩ := by
  have hnone : findAvail (addFailed st.failedKeys st.currentKeyIndex)
      st.apiKeys.length 0 = none :=
    findAvail_none_of_all _ _ _
      (fun k _ hk2 => mem_addFailed_of_mem _ _ _ (hall k (by omega)))
  have hrot : rotateApiKey st =
      (false, { st with
        failedKeys := addFailed st.failedKeys st.currentKeyIndex }) := by
    unfold rotateApiKey
    rw [hnone]
  refine ⟨by rw [hrot], ?_⟩
  intro svc m e hm hsvc hke
  show retryLoopAux svc m (m - 0) st 0 = _
  have h1 : m - 0 = (m - 1) + 1 := by omega
  rw [h1, retryLoopAux, hsvc]
  simp only [hke, if_pos, hrot]

theorem exhausted_pool_rotation_fails_and_key_error_raises_witness :
    (rotateApiKey stExh).1 = false ∧
    makeApiCallWithRetry svcQuotaAlways 3 stExh =
      ⟨.allKeysExhausted, (rotateApiKey stExh).2, [],
        [stExh.currentKeyIndex]⟩ :=
  ⟨(exhausted_pool_rotation_fails_and_key_error_raises stExh (by decide)).1,
   (exhausted_pool_rotation_fails_and_key_error_raises stExh (by decide)).2
     svcQuotaAlways 3 "Quota exceeded" (by decide) rfl (by decide)⟩

theorem lookup_append_some (d1 d2 : JobData) (k : String) (v : Json)
    (h : d1.lookup k = some v) : (d1 ++ d2).lookup k = some v := by
  induction d1 with
  | nil => simp [List.lookup] at h
  | cons a t ih =>
    rcases a with ⟨ka, va⟩
    rw [List.lookup] at h
    rcases hbeq : k == ka with _ | _
    · rw [hbeq] at h
      rw [List.cons_append, List.lookup, hbeq]
      exact ih h
    · rw [hbeq] at h
      rw [List.cons_append, List.lookup, hbeq]
      exact h

theorem lookup_append_none (d1 d2 : JobData) (k : String)
    (h : d1.lookup k = none) : (d1 ++ d2).lookup k = d2.lookup k := by
  induction d1 with
  | nil => rfl
  | cons a t ih =>
    rcases a with ⟨ka, va⟩
    rw [List.lookup] at h
    rcases hbeq : k == ka with _ | _
    · rw [hbeq] at h
      rw [List.cons_append, List.lookup, hbeq]
      exact ih h
    · rw [hbeq] at h
      exact absurd h (by simp)

theorem fillStep_preserves (acc : JobData) (f k : String) (v : Json)
    (h : acc.lookup k = some v) : (fillStep acc f).lookup k = some v := by
  unfold fillStep
  split
  · exact h
  · exact lookup_append_some _ _ _ _ h

theorem foldl_fillStep_preserves (fs : List String) (acc : JobData)
    (k : String) (v : Json) (h : acc.lookup k = some v) :
    (fs.foldl fillStep acc).lookup k = some v := by
  induction fs generalizing acc with
  | nil => exact h
  | cons g t ih => exact ih (fillStep acc g) (fillStep_preserves acc g k v h)

theorem fillStep_not_specified (acc : JobData) (f : String)
    (h : acc.lookup f = none) :
    (fillStep acc f).lookup f = some (.str "Not specified") := by
  unfold fillStep
  rw [h]
  simp only [Option.isSome_none, Bool.false_eq_true, if_false]
  rw [lookup_append_none _ _ _ h]
  simp [List.lookup]

theorem fillStep_none_ne (acc : JobData) (g f : String) (hne : f ≠ g)
    (h : acc.lookup f = none) : (fillStep acc g).lookup f = none := by
  unfold fillStep
  split
  · exact h
  · rw [lookup_append_none _ _ _ h]
    have hb : (f == g) = false := beq_eq_false_iff_ne.mpr hne
    simp [List.lookup, hb]

theorem foldl_fillStep_covers (fs : List String) (acc : JobData)
    (f : String) (hf : f ∈ fs) :
    ((fs.foldl fillStep acc).lookup f).isSome = true := by
  induction fs generalizing acc with
  | nil => cases hf
  | cons g t ih =>
    rcases List.mem_cons.mp hf with hfg | hft
    · subst hfg
      rcases hs : (fillStep acc f).lookup f with _ | v
      · exfalso
        unfold fillStep at hs
        rcases ha : acc.lookup f with _ | w
        · rw [ha] at hs
          simp only [Option.isSome_none, Bool.false_eq_true, if_false] at hs
          rw [lookup_append_none _ _ _ ha] at hs
          simp [List.lookup] at hs
        · rw [ha] at hs
          simp only [Option.isSome_some, if_true] at hs
          rw [ha] at hs
          exact Option.noConfusion hs
      · rw [List.foldl_cons,
          foldl_fillStep_preserves t (fillStep acc f) f v hs]
        rfl
    · exact ih (fillStep acc g) hft

theorem foldl_fillStep_missing (fs : List String) (acc : JobData)
    (f : String) (hnd : fs.Nodup) (hf : f ∈ fs) (h : acc.lookup f = none) :
    (fs.foldl fillStep acc).lookup f = some (.str "Not specified") := by
  induction fs generalizing acc with
  | nil => cases hf
  | cons g t ih =>
    obtain ⟨hgt, hndt⟩ := List.nodup_cons.mp hnd
    rcases List.mem_cons.mp hf with hfg | hft
    · subst hfg
      rw [List.foldl_cons]
      exact foldl_fillStep_preserves t (fillStep acc f) f _
        (fillStep_not_specified acc f h)
    · have hne : f ≠ g := fun hEq => hgt (hEq ▸ hft)
      rw [List.foldl_cons]
      exact ih (fillStep acc g) hndt hft (fillStep_none_ne acc g f hne h)

set_option maxRecDepth 4096 in
/-- Claim C3 counterexample: the fourteen-field coverage is not
universal.  When the service returns the JSON array of exactly the
fourteen required field names, every `field not in job_data` test is
false (list membership), the defaulting loop performs no assignment,
and `extract_job_details` returns the raw array as-is: a result that
is not an object and has none of the fourteen named fields. -/
theorem extract_array_of_names_escapes_defaulting :
    extractJobDetails arrParse (.success arrText) = fieldNamesArr ∧
    isJsonObj (extractJobDetails arrParse (.success arrText)) = false ∧
    requiredFields.all
      (fun f => (jsonLookup (extractJobDetails arrParse (.success arrText))
        f).isNone) = true := by
  refine ⟨rfl, rfl, rfl⟩

/-- Claim C3 (amended): `extract_job_details` is total (never raises
outward); when the response parses as a JSON object the result is the
object with every one of the fourteen required fields present; any
raised service call or non-JSON response yields exactly the
all-default dictionary, whose validity flag is the boolean `false`;
and a decoded non-object value either falls back to the all-default
dictionary (the defaulting loop's `TypeError` is caught) or — when
every one of the fourteen field names passes Python's `in` test
against it — escapes the loop and is returned as-is, lacking the
named fields. -/
theorem extract_object_fields_failure_defaults_nondict_escape
    (parse : String → Option Json) (svcResult : CallOutcome)
    (f : String) (hf : f ∈ requiredFields) :
    (∀ text fields, svcResult = .success text →
      parse (cleanResponseText text) = some (.obj fields) →
      extractJobDetails parse svcResult = .obj (fillRequired fields) ∧
      ((fillRequired fields).lookup f).isSome = true) ∧
    ((match svcResult with
      | .success text => parse (cleanResponseText text) = none
      | _ => True) →
      extractJobDetails parse svcResult = .obj defaultJobData) ∧
    defaultJobData.lookup "is_valid_job" = some (.bool false) ∧
    (∀ text v, svcResult = .success text →
      parse (cleanResponseText text) = some v → isJsonObj v = false →
      (allFieldsPyIn v = false →
        extractJobDetails parse svcResult = .obj defaultJobData) ∧
      (allFieldsPyIn v = true →
        extractJobDetails parse svcResult = v)) := by
  refine ⟨?_, ?_, rfl, ?_⟩
  · intro text fields hs hp
    subst hs
    exact ⟨by simp only [extractJobDetails, hp],
      foldl_fillStep_covers requiredFields fields f hf⟩
  · intro hfail
    rcases svcResult with text | _ | e | _
    · have hp : parse (cleanResponseText text) = none := hfail
      simp only [extractJobDetails, hp]
    · rfl
    · rfl
    · rfl
  · intro text v hs hp hobj
    subst hs
    cases v with
    | str a =>
      exact ⟨fun hall => by simp [extractJobDetails, hp, hall],
        fun hall => by simp [extractJobDetails, hp, hall]⟩
    | bool b =>
      exact ⟨fun hall => by simp [extractJobDetails, hp, hall],
        fun hall => by simp [extractJobDetails, hp, hall]⟩
    | num n =>
      exact ⟨fun hall => by simp [extractJobDetails, hp, hall],
        fun hall => by simp [extractJobDetails, hp, hall]⟩
    | null =>
      exact ⟨fun hall => by simp [extractJobDetails, hp, hall],
        fun hall => by simp [extractJobDetails, hp, hall]⟩
    | arr elems =>
      exact ⟨fun hall => by simp [extractJobDetails, hp, hall],
        fun hall => by simp [extractJobDetails, hp, hall]⟩
    | obj fields => simp [isJsonObj] at hobj

set_option maxRecDepth 4096 in
theorem extract_object_fields_failure_defaults_nondict_escape_witness :
    (extractJobDetails acmeParse (.success acmeResponse) =
        .obj (fillRequired acmeParsed) ∧
      ((fillRequired acmeParsed).lookup "urgency").isSome = true) ∧
    extractJobDetails failParse (.success "not json") =
      .obj defaultJobData ∧
    defaultJobData.lookup "is_valid_job" = some (.bool false) ∧
    extractJobDetails arrParse (.success arrText) = fieldNamesArr :=
  ⟨(extract_object_fields_failure_defaults_nondict_escape
      acmeParse (.success acmeResponse) "urgency" (by decide)).1
      acmeResponse acmeParsed rfl rfl,
   (extract_object_fields_failure_defaults_nondict_escape
      failParse (.success "not json") "urgency" (by decide)).2.1 rfl,
   (extract_object_fields_failure_defaults_nondict_escape
      failParse (.success "not json") "urgency" (by decide)).2.2.1,
   ((extract_object_fields_failure_defaults_nondict_escape
      arrParse (.success arrText) "urgency" (by decide)).2.2.2
      arrText fieldNamesArr rfl rfl rfl).2 rfl⟩

/-- Claim C4 counterexample: for the fenced Acme scenario response,
`extract_job_details` fills the absent `urgency` field with
`'Not specified'` — the same sentinel as every other field — not with
`'Normal'`: the `'Normal'` default exists only in the all-default
dictionary of the `except` branch. -/
theorem acme_scenario_urgency_not_normal :
    jsonLookup (extractJobDetails acmeParse (.success acmeResponse))
      "urgency" = some (.str "Not specified") ∧
    ¬ (jsonLookup (extractJobDetails acmeParse (.success acmeResponse))
      "urgency" = some (.str "Normal")) := by
  refine ⟨rfl, fun h => ?_⟩
  rw [show jsonLookup (extractJobDetails acmeParse (.success acmeResponse))
      "urgency" = some (Json.str "Not specified") from rfl] at h
  injection h with h
  injection h with h
  exact absurd h (by decide)

/-- Claim C4 (amended): a field absent from the parsed object is filled
with the sentinel `'Not specified'` — for every required field,
`urgency` included; the `'Normal'` urgency default applies only to the
all-default failure result.  The fenced Acme scenario response yields
`company_name="Acme"`, `job_title="Engineer"`, `is_valid_job=true`,
and the eleven other fields all `'Not specified'` (so `urgency` is
`'Not specified'`, not `'Normal'`). -/
theorem missing_fields_filled_not_specified (jd : JobData) (f : String)
    (hf : f ∈ requiredFields) (hmiss : jd.lookup f = none) :
    (fillRequired jd).lookup f = some (.str "Not specified") ∧
    extractJobDetails acmeParse (.success acmeResponse) =
      .obj (acmeParsed ++
        (["location", "experience_required", "salary_range", "job_type",
          "skills_required", "contact_info", "application_method",
          "job_description", "remote_work", "urgency", "benefits"].map
            (fun g => (g, Json.str "Not specified")))) := by
  exact ⟨foldl_fillStep_missing requiredFields jd f (by decide) hf hmiss, rfl⟩

theorem missing_fields_filled_not_specified_witness :
    (fillRequired []).lookup "urgency" = some (.str "Not specified") ∧
    extractJobDetails acmeParse (.success acmeResponse) =
      .obj (acmeParsed ++
        (["location", "experience_required", "salary_range", "job_type",
          "skills_required", "contact_info", "application_method",
          "job_description", "remote_work", "urgency", "benefits"].map
            (fun g => (g, Json.str "Not specified")))) :=
  missing_fields_filled_not_specified [] "urgency" (by decide) rfl

theorem lookup_cons_self (ka : String) (va : Json) (t : JobData) :
    ((ka, va) :: t).lookup ka = some va := by
  simp [List.lookup]

theorem lookup_cons_ne (k ka : String) (va : Json) (t : JobData)
    (h : k ≠ ka) : ((ka, va) :: t).lookup k = t.lookup k := by
  rw [List.lookup, beq_eq_false_iff_ne.mpr h]

theorem lookup_map_set_ne (d : JobData) (k : String) (v : Json)
    (k' : String) (hne : k' ≠ k) :
    (d.map (fun p => if p.1 = k then (k, v) else p)).lookup k' =
      d.lookup k' := by
  induction d with
  | nil => rfl
  | cons a t ih =>
    rcases a with ⟨ka, va⟩
    simp only [List.map_cons]
    by_cases hak : ka = k
    · rw [if_pos hak, lookup_cons_ne k' k v _ hne,
        lookup_cons_ne k' ka va t (fun hEq => hne (hEq.trans hak))]
      exact ih
    · rw [if_neg hak]
      by_cases hk'a : k' = ka
      · subst hk'a
        rw [lookup_cons_self, lookup_cons_self]
      · rw [lookup_cons_ne _ _ _ _ hk'a, lookup_cons_ne _ _ _ _ hk'a]
        exact ih

theorem lookup_dictSet_ne (d : JobData) (k : String) (v : Json)
    (k' : String) (hne : k' ≠ k) :
    (dictSet d k v).lookup k' = d.lookup k' := by
  unfold dictSet
  split
  · exact lookup_map_set_ne d k v k' hne
  · rcases hd : d.lookup k' with _ | w
    · rw [lookup_append_none _ _ _ hd]
      have hb : (k' == k) = false := beq_eq_false_iff_ne.mpr hne
      simp [List.lookup, hb]
    · exact lookup_append_some _ _ _ _ hd

theorem lookup_dictUpdate_notin (entries : JobData) :
    ∀ (d : JobData) (k : String), (∀ e ∈ entries, e.1 ≠ k) →
      (dictUpdate d entries).lookup k = d.lookup k := by
  induction entries with
  | nil => intro d k _; rfl
  | cons a t ih =>
    intro d k h
    show ((a :: t).foldl (fun acc e => dictSet acc e.1 e.2) d).lookup k = _
    rw [List.foldl_cons]
    have hfold : List.foldl (fun acc e => dictSet acc e.1 e.2)
        (dictSet d a.1 a.2) t = dictUpdate (dictSet d a.1 a.2) t := rfl
    rw [hfold,
      ih (dictSet d a.1 a.2) k (fun e he => h e (List.mem_cons_of_mem a he))]
    exact lookup_dictSet_ne d a.1 a.2 k
      (fun hEq => (h a (List.mem_cons_self a t)) hEq.symm)

theorem provenance_keys_ne_valid (p : Post) (now : String) :
    ∀ e ∈ provenanceEntries p now, e.1 ≠ "is_valid_job" := by
  intro e he
  simp only [provenanceEntries, List.mem_cons, List.not_mem_nil,
    or_false] at he
  rcases he with rfl | rfl | rfl | rfl | rfl | rfl <;> simp

theorem processBatchItems_short_cons {σ : Type}
    (ex : σ → String → String → String → Except String JobData × σ)
    (now : String) (s : σ) (p : Post) (rest : List Post)
    (h : (pyStrip (p.content.getD "")).length < 20) :
    processBatchItems ex now s (p :: rest) =
      processBatchItems ex now s rest := by
  rw [processBatchItems, if_pos h]

theorem processBatchItems_append {σ : Type}
    (ex : σ → String → String → String → Except String JobData × σ)
    (now : String) (l1 : List Post) :
    ∀ (l2 : List Post) (s : σ),
      processBatchItems ex now s (l1 ++ l2) =
        ⟨(processBatchItems ex now s l1).jobs ++
           (processBatchItems ex now
             (processBatchItems ex now s l1).finalState l2).jobs,
         (processBatchItems ex now s l1).failures ++
           (processBatchItems ex now
             (processBatchItems ex now s l1).finalState l2).failures,
         (processBatchItems ex now s l1).calls ++
           (processBatchItems ex now
             (processBatchItems ex now s l1).finalState l2).calls,
         (processBatchItems ex now
           (processBatchItems ex now s l1).finalState l2).finalState⟩ := by
  induction l1 with
  | nil => intro l2 s; rfl
  | cons p t ih =>
    intro l2 s
    rw [List.cons_append]
    by_cases hshort : (pyStrip (p.content.getD "")).length < 20
    · rw [processBatchItems_short_cons ex now s p (t ++ l2) hshort,
        processBatchItems_short_cons ex now s p t hshort]
      exact ih l2 s
    · rw [processBatchItems, if_neg hshort,
        processBatchItems, if_neg hshort]
      rcases hex : ex s (p.content.getD "") (p.author.getD "Unknown")
          (p.time.getD "") with ⟨res, s'⟩
      rcases res with err | jd
      · dsimp only
        rw [ih l2 s']
        simp [List.cons_append]
      · dsimp only
        by_cases hvalid : isValidJobTruthy jd
        · rw [if_pos hvalid, if_pos hvalid, ih l2 s']
          simp [List.cons_append]
        · rw [if_neg hvalid, if_neg hvalid, ih l2 s']
          simp [List.cons_append]

theorem runBatches_eq_flatten {σ : Type}
    (ex : σ → String → String → String → Except String JobData × σ)
    (now : String) :
    ∀ (batches : List (List Post)) (s : σ),
      runBatches ex now s batches =
        processBatchItems ex now s batches.flatten := by
  intro batches
  induction batches with
  | nil => intro s; rfl
  | cons b t ih =>
    intro s
    rw [List.flatten_cons, processBatchItems_append ex now b t.flatten s]
    show (⟨(processBatchItems ex now s b).jobs ++
        (runBatches ex now (processBatchItems ex now s b).finalState t).jobs,
      (processBatchItems ex now s b).failures ++
        (runBatches ex now (processBatchItems ex now s b).finalState
          t).failures,
      (processBatchItems ex now s b).calls ++
        (runBatches ex now (processBatchItems ex now s b).finalState t).calls,
      (runBatches ex now (processBatchItems ex now s b).finalState
        t).finalState⟩ : BatchResult σ) = _
    rw [ih (processBatchItems ex now s b).finalState]

theorem batchesOfAux_cons_of_ne (bs n : Nat) (l : List Post) (h : l ≠ []) :
    batchesOfAux bs (n + 1) l = l.take bs :: batchesOfAux bs n (l.drop bs) := by
  rcases l with _ | ⟨a, t⟩
  · exact absurd rfl h
  · rfl

theorem batchesOfAux_flatten (bs : Nat) (hbs : 0 < bs) :
    ∀ (fuel : Nat) (l : List Post), l.length ≤ fuel →
      (batchesOfAux bs fuel l).flatten = l := by
  intro fuel
  induction fuel with
  | zero =>
    intro l h
    have hl : l = [] := List.eq_nil_of_length_eq_zero (by omega)
    subst hl
    rfl
  | succ n ih =>
    intro l h
    rcases l with _ | ⟨a, t⟩
    · rfl
    · rw [batchesOfAux_cons_of_ne bs n (a :: t) (by simp), List.flatten_cons,
        ih ((a :: t).drop bs) (by simp at h ⊢; omega)]
      exact List.take_append_drop bs (a :: t)

theorem batchesOf_flatten (bs : Nat) (hbs : 0 < bs) (l : List Post) :
    (batchesOf bs l).flatten = l := by
  unfold batchesOf
  rw [if_neg (by omega)]
  exact batchesOfAux_flatten bs hbs l.length l (Nat.le_refl _)

/-- Claim C7: `process_posts_batch` slices its input into contiguous
batches in original order and concatenates per-batch results, so the
whole run equals a single in-order pass over the input: same processed
jobs (in input order), same failure ledger, same extraction calls, and
the same final extractor state; for an input of 23 posts with batch
size 10 there are exactly 3 batch iterations of sizes 10, 10, 3. -/
theorem batch_pipeline_contiguous_order_preserving {σ : Type}
    (ex : σ → String → String → String → Except String JobData × σ)
    (now : String) (s : σ) (posts : List Post) (bs : Nat) (hbs : 0 < bs) :
    (processPostsBatch ex now s posts bs).1 =
      processBatchItems ex now s posts ∧
    (posts.length = 23 → bs = 10 →
      (batchesOf bs posts).map List.length = [10, 10, 3] ∧
      (processPostsBatch ex now s posts bs).2 = 3) := by
  constructor
  · show runBatches ex now s (batchesOf bs posts) = _
    rw [runBatches_eq_flatten, batchesOf_flatten bs hbs]
  · intro h23 h10
    subst h10
    have h1 : posts ≠ [] := by
      intro hE
      rw [hE] at h23
      simp at h23
    have hd1 : (posts.drop 10).length = 13 := by
      rw [List.length_drop, h23]
    have h2 : posts.drop 10 ≠ [] := by
      intro hE
      rw [hE] at hd1
      simp at hd1
    have hd2 : ((posts.drop 10).drop 10).length = 3 := by
      rw [List.length_drop, hd1]
    have h3 : (posts.drop 10).drop 10 ≠ [] := by
      intro hE
      rw [hE] at hd2
      simp at hd2
    have hd3 : (((posts.drop 10).drop 10).drop 10).length = 0 := by
      rw [List.length_drop, hd2]
    have h4 : ((posts.drop 10).drop 10).drop 10 = [] :=
      List.eq_nil_of_length_eq_zero hd3
    have hsizes : (batchesOf 10 posts).map List.length = [10, 10, 3] := by
      unfold batchesOf
      rw [if_neg (by omega), h23,
        show (23 : Nat) = 22 + 1 from rfl,
        batchesOfAux_cons_of_ne _ _ _ h1,
        show (22 : Nat) = 21 + 1 from rfl,
        batchesOfAux_cons_of_ne _ _ _ h2,
        show (21 : Nat) = 20 + 1 from rfl,
        batchesOfAux_cons_of_ne _ _ _ h3, h4,
        show batchesOfAux 10 20 ([] : List Post) = [] from rfl]
      simp [List.length_take, hd1, hd2, h23]
    refine ⟨hsizes, ?_⟩
    show (batchesOf 10 posts).length = 3
    have hlen := congrArg List.length hsizes
    simpa using hlen

theorem batch_pipeline_contiguous_order_preserving_witness :
    (processPostsBatch exTrivial "T" () (List.replicate 23 blankPost) 10).1 =
      processBatchItems exTrivial "T" () (List.replicate 23 blankPost) ∧
    ((List.replicate 23 blankPost).length = 23 → 10 = 10 →
      (batchesOf 10 (List.replicate 23 blankPost)).map List.length =
        [10, 10, 3] ∧
      (processPostsBatch exTrivial "T" () (List.replicate 23 blankPost)
        10).2 = 3) :=
  batch_pipeline_contiguous_order_preserving exTrivial "T" ()
    (List.replicate 23 blankPost) 10 (by decide)

/-- Claim C8: a post whose stripped content is shorter than 20
characters is skipped by `process_posts_batch` as if it were absent:
no processed job, no failure record, no extraction call, and no state
change come from it (the run over `p :: rest` equals the run over
`rest`). -/
theorem short_content_skipped_no_record_no_call {σ : Type}
    (ex : σ → String → String → String → Except String JobData × σ)
    (now : String) (s : σ) (p : Post) (rest : List Post)
    (h : (pyStrip (p.content.getD "")).length < 20) :
    processBatchItems ex now s (p :: rest) =
      processBatchItems ex now s rest :=
  processBatchItems_short_cons ex now s p rest h

theorem short_content_skipped_no_record_no_call_witness :
    processBatchItems exTrivial "T" () (hiPost :: []) =
      processBatchItems exTrivial "T" () [] :=
  short_content_skipped_no_record_no_call exTrivial "T" () hiPost []
    (by decide)

theorem no_invalid_in_batchItems {σ : Type}
    (ex : σ → String → String → String → Except String JobData × σ)
    (now : String) :
    ∀ (l : List Post) (s : σ) (job : JobData),
      job ∈ (processBatchItems ex now s l).jobs →
      job.lookup "is_valid_job" ≠ some (Json.bool false) := by
  intro l
  induction l with
  | nil =>
    intro s job h
    simp [processBatchItems] at h
  | cons p t ih =>
    intro s job h
    by_cases hshort : (pyStrip (p.content.getD "")).length < 20
    · rw [processBatchItems_short_cons ex now s p t hshort] at h
      exact ih s job h
    · rw [processBatchItems, if_neg hshort] at h
      rcases hex : ex s (p.content.getD "") (p.author.getD "Unknown")
          (p.time.getD "") with ⟨res, s'⟩
      rw [hex] at h
      rcases res with err | jd
      · exact ih s' job h
      · dsimp only at h
        by_cases hvalid : isValidJobTruthy jd
        · rw [if_pos hvalid] at h
          rcases List.mem_cons.mp h with hEq | hmem
          · subst hEq
            rw [lookup_dictUpdate_notin (provenanceEntries p now) jd
              "is_valid_job" (provenance_keys_ne_valid p now)]
            unfold isValidJobTruthy at hvalid
            rcases hl : jd.lookup "is_valid_job" with _ | v
            · rw [hl] at hvalid
              exact absurd hvalid (by decide)
            · rw [hl] at hvalid
              intro hcon
              injection hcon with hv
              rw [hv] at hvalid
              exact absurd hvalid (by decide)
          · exact ih s' job hmem
        · rw [if_neg hvalid] at h
          exact ih s' job h

theorem no_invalid_in_runBatches {σ : Type}
    (ex : σ → String → String → String → Except String JobData × σ)
    (now : String) :
    ∀ (batches : List (List Post)) (s : σ) (job : JobData),
      job ∈ (runBatches ex now s batches).jobs →
      job.lookup "is_valid_job" ≠ some (Json.bool false) := by
  intro batches
  induction batches with
  | nil =>
    intro s job h
    simp [runBatches] at h
  | cons b t ih =>
    intro s job h
    rw [runBatches] at h
    dsimp only at h
    rcases List.mem_append.mp h with hmem | hmem
    · exact no_invalid_in_batchItems ex now b s job hmem
    · exact ih (processBatchItems ex now s b).finalState job hmem

/-- Claim C9: invariant of the batch loop — no element of the returned
processed collection has `is_valid_job` equal to the boolean `false`:
a job dict is appended only when
`job_details.get('is_valid_job', False)` is truthy, and merging
provenance does not touch that key. -/
theorem no_invalid_job_in_output {σ : Type}
    (ex : σ → String → String → String → Except String JobData × σ)
    (now : String) (s : σ) (posts : List Post) (bs : Nat) (job : JobData)
    (h : job ∈ (processPostsBatch ex now s posts bs).1.jobs) :
    job.lookup "is_valid_job" ≠ some (Json.bool false) :=
  no_invalid_in_runBatches ex now (batchesOf bs posts) s job h

theorem no_invalid_job_in_output_witness :
    (dictUpdate [("is_valid_job", Json.bool true)]
      (provenanceEntries longPost "T")).lookup "is_valid_job" ≠
      some (Json.bool false) :=
  no_invalid_job_in_output exValidJob "T" () [longPost] 10
    (dictUpdate [("is_valid_job", Json.bool true)]
      (provenanceEntries longPost "T"))
    (by show _ ∈ [dictUpdate [("is_valid_job", Json.bool true)]
          (provenanceEntries longPost "T")]
        exact List.mem_singleton_self _)

/-- Claim C10 (implicit edge case): when the service response parses as
a JSON object that lacks `is_valid_job`, `extract_job_details` fills
it with the string `'Not specified'` (not the boolean `false`); since
`process_posts_batch` tests `job_details.get('is_valid_job', False)`
for truthiness and a non-empty string is truthy, such an item is
admitted into the processed output. -/
theorem missing_valid_flag_filled_truthy_and_admitted
    (parse : String → Option Json) (text : String) (jd : JobData)
    (hparse : parse (cleanResponseText text) = some (.obj jd))
    (hmiss : jd.lookup "is_valid_job" = none)
    {σ : Type} (s : σ) (now : String) (p : Post)
    (hlong : ¬ (pyStrip (p.content.getD "")).length < 20) :
    extractJobDetails parse (.success text) = .obj (fillRequired jd) ∧
    jsonLookup (extractJobDetails parse (.success text)) "is_valid_job" =
      some (.str "Not specified") ∧
    isValidJobTruthy (fillRequired jd) = true ∧
    (processBatchItems
      (fun (u : σ) (_ _ _ : String) =>
        (Except.ok (fillRequired jd), u))
      now s [p]).jobs =
      [dictUpdate (fillRequired jd) (provenanceEntries p now)] := by
  have h0 : extractJobDetails parse (.success text) =
      .obj (fillRequired jd) := by
    simp only [extractJobDetails, hparse]
  have h1 : (fillRequired jd).lookup "is_valid_job" =
      some (.str "Not specified") :=
    foldl_fillStep_missing requiredFields jd "is_valid_job" (by decide)
      (by decide) hmiss
  have h2 : isValidJobTruthy (fillRequired jd) = true := by
    unfold isValidJobTruthy
    rw [h1]
    rfl
  refine ⟨h0, ?_, h2, ?_⟩
  · rw [h0]
    exact h1
  · rw [processBatchItems, if_neg hlong]
    dsimp only
    rw [if_pos h2]
    rfl

theorem missing_valid_flag_filled_truthy_and_admitted_witness :
    extractJobDetails parseEmptyObj (.success "{}") =
      .obj (fillRequired []) ∧
    jsonLookup (extractJobDetails parseEmptyObj (.success "{}"))
      "is_valid_job" = some (.str "Not specified") ∧
    isValidJobTruthy (fillRequired []) = true ∧
    (processBatchItems
      (fun (u : Unit) (_ _ _ : String) =>
        (Except.ok (fillRequired []), u))
      "T" () [longPost]).jobs =
      [dictUpdate (fillRequired []) (provenanceEntries longPost "T")] :=
  missing_valid_flag_filled_truthy_and_admitted parseEmptyObj "{}" []
    rfl rfl () "T" longPost (by decide)
